import Mathlib

/-!
Shallow embedding of the sprint-simulation core of the scrum-master game:
ticket/board/team/sprint data model, the Zustand store actions, the payout
calculator, the per-tick simulator step, and the fixed-timestep game loop.

Numbers that are JavaScript `number`s are modelled as `ℚ` (the game only
ever combines them by +, -, *, /, min, max and comparisons); counters are
`ℕ`. `Math.pow`, a host primitive used once for the payout curve, is passed
to `calculateFinalResult` as an explicit function argument. Randomness
(`Math.random`-derived draws inside a tick) is passed in as an explicit
`TickRng` record holding the draw used by the blocker-spawn roll and the
freshly generated blocker's id/title.
-/

namespace ScrumGame

/-! ## Data model (src/types) -/

/-- `TicketType` from ticket.types.ts. -/
inductive TicketType where
  | story
  | blocker
deriving DecidableEq

/-- `TicketStatus` from ticket.types.ts ('backlog' variant included, as used
by the contract generator and board store). -/
inductive TicketStatus where
  | backlog
  | todo
  | doing
  | done
deriving DecidableEq

/-- `Ticket` from ticket.types.ts. -/
structure Ticket where
  id : String
  type : TicketType
  title : String
  storyPoints : ℚ
  pointsCompleted : ℚ
  status : TicketStatus
deriving DecidableEq

/-- `SprintPhase` from sprint.types.ts. -/
inductive SprintPhase where
  | idle
  | planning
  | active
  | review
deriving DecidableEq

/-- `Contract` from sprint.types.ts. -/
structure Contract where
  id : String
  clientName : String
  allStories : List Ticket
  payout : ℚ
  sprintDays : ℕ
  totalSprints : ℕ
  currentSprint : ℕ
deriving DecidableEq

/-- `SprintGrade` from sprint.types.ts. -/
inductive SprintGrade where
  | S
  | A
  | B
  | C
  | D
  | F
deriving DecidableEq

/-- `SprintResultKind` from sprint.types.ts. -/
inductive SprintResultKind where
  | interim
  | final
deriving DecidableEq

/-- `SprintResult` from sprint.types.ts. -/
structure SprintResult where
  kind : SprintResultKind
  sprintNumber : ℕ
  totalSprints : ℕ
  ticketsCompleted : ℕ
  ticketsTotal : ℕ
  pointsCompleted : ℚ
  pointsTotal : ℚ
  contractPointsCompleted : ℚ
  contractPointsTotal : ℚ
  blockersSmashed : ℕ
  cashEarned : ℚ
  bonusEarned : ℚ
  earlyDeliveryBonus : ℚ
  daysRemaining : ℤ
  grade : SprintGrade
deriving DecidableEq

/-- `DeveloperArchetype` from developer.types.ts. -/
inductive DeveloperArchetype where
  | junior
  | mid
  | senior
  | qa
  | scrumMaster
deriving DecidableEq

/-- `DeveloperTrait` from developer.types.ts (optional fields as `Option`). -/
structure DeveloperTrait where
  label : String
  description : String
  blockerRateReduction : Option ℚ
  velocityAura : Option ℚ
deriving DecidableEq

/-- `Developer` from developer.types.ts. -/
structure Developer where
  id : String
  name : String
  archetype : DeveloperArchetype
  velocity : ℚ
  avatar : String
  trait : Option DeveloperTrait
  hireCost : Option ℚ
deriving DecidableEq

/-! ## Constants (src/constants) -/

/-- `TICK_INTERVAL_MS` from game.constants.ts. -/
def TICK_INTERVAL_MS : ℚ := 800

/-- `TICKS_PER_DAY` from game.constants.ts. -/
def TICKS_PER_DAY : ℕ := 8

/-- `DEFAULT_SPRINT_DAYS` from game.constants.ts. -/
def DEFAULT_SPRINT_DAYS : ℕ := 10

/-- `BASE_DEVELOPER_VELOCITY` from game.constants.ts. -/
def BASE_DEVELOPER_VELOCITY : ℚ := 1 / 2

/-- `STARTING_CASH` from game.constants.ts. -/
def STARTING_CASH : ℚ := 0

/-- `PERFECT_COMPLETION_BONUS` from game.constants.ts (0.25). -/
def PERFECT_COMPLETION_BONUS : ℚ := 1 / 4

/-- `EARLY_DELIVERY_BONUS_PER_DAY` from game.constants.ts (0.05). -/
def EARLY_DELIVERY_BONUS_PER_DAY : ℚ := 1 / 20

/-- `BLOCKER_SPAWN_CHANCE_PER_TICK` from game.constants.ts (0.04). -/
def BLOCKER_SPAWN_CHANCE_PER_TICK : ℚ := 1 / 25

/-- `MAX_ACTIVE_BLOCKERS` from game.constants.ts. -/
def MAX_ACTIVE_BLOCKERS : ℕ := 3

/-- `MAX_TEAM_SIZE` from game.constants.ts. -/
def MAX_TEAM_SIZE : ℕ := 4

/-- `CONTRACT_PAYOUT_CURVE` from game.constants.ts (1.3). -/
def CONTRACT_PAYOUT_CURVE : ℚ := 13 / 10

/-- `GRADE_THRESHOLDS` from game.constants.ts. -/
def GRADE_THRESHOLDS_S : ℚ := 1
def GRADE_THRESHOLDS_A : ℚ := 4 / 5
def GRADE_THRESHOLDS_B : ℚ := 3 / 5
def GRADE_THRESHOLDS_C : ℚ := 2 / 5
def GRADE_THRESHOLDS_D : ℚ := 1 / 5

/-- `BLOCKER_STORY_POINTS` from tickets.constants.ts (blockers carry 0 points). -/
def BLOCKER_STORY_POINTS : ℚ := 0

/-- `WIP_OVERAGE_PENALTY` from SprintSimulator.ts (0.10 per excess story). -/
def WIP_OVERAGE_PENALTY : ℚ := 1 / 10

/-- `WIP_PENALTY_FLOOR` from SprintSimulator.ts (0.40 minimum multiplier). -/
def WIP_PENALTY_FLOOR : ℚ := 2 / 5

/-- `FLOW_BURST_DURATION` from SprintSimulator.ts. -/
def FLOW_BURST_DURATION : ℕ := 6

/-- `FLOW_BURST_MULTIPLIER` from SprintSimulator.ts (1.2). -/
def FLOW_BURST_MULTIPLIER : ℚ := 6 / 5

/-! ## Board store (src/stores/boardStore.ts) -/

/-- The state of `useBoardStore`. -/
structure BoardState where
  tickets : List Ticket
  backlog : List Ticket
  draggedTicketId : Option String
deriving DecidableEq

namespace BoardState

/-- `setTickets` action. -/
def setTickets (tickets : List Ticket) (s : BoardState) : BoardState :=
  { s with tickets := tickets }

/-- `setBacklog` action. -/
def setBacklog (tickets : List Ticket) (s : BoardState) : BoardState :=
  { s with backlog := tickets }

/-- `moveTicket` action: set the status of every ticket whose id matches. -/
def moveTicket (ticketId : String) (toColumn : TicketStatus) (s : BoardState) :
    BoardState :=
  { s with
    tickets := s.tickets.map fun ticket =>
      if ticket.id = ticketId then { ticket with status := toColumn } else ticket }

/-- `progressTicket` action: add `pointsDone` to the matching ticket's
`pointsCompleted`, clamped at `storyPoints` by `Math.min`. -/
def progressTicket (ticketId : String) (pointsDone : ℚ) (s : BoardState) :
    BoardState :=
  { s with
    tickets := s.tickets.map fun ticket =>
      if ticket.id = ticketId then
        { ticket with
          pointsCompleted := min (ticket.pointsCompleted + pointsDone) ticket.storyPoints }
      else ticket }

/-- `smashBlocker` action: mark the matching ticket done. -/
def smashBlocker (ticketId : String) (s : BoardState) : BoardState :=
  { s with
    tickets := s.tickets.map fun ticket =>
      if ticket.id = ticketId then { ticket with status := TicketStatus.done }
      else ticket }

/-- `spawnBlocker` action: append a blocker ticket to the board. -/
def spawnBlocker (ticket : Ticket) (s : BoardState) : BoardState :=
  { s with tickets := s.tickets ++ [ticket] }

/-- `commitStory` action: move a story from the backlog onto the board as 'todo'. -/
def commitStory (ticketId : String) (s : BoardState) : BoardState :=
  match s.backlog.find? (fun t => t.id = ticketId) with
  | none => s
  | some story =>
      { s with
        backlog := s.backlog.filter fun t => t.id ≠ ticketId
        tickets := s.tickets ++ [{ story with status := TicketStatus.todo }] }

/-- `uncommitStory` action: move a story from the board back to the backlog. -/
def uncommitStory (ticketId : String) (s : BoardState) : BoardState :=
  match s.tickets.find? (fun t => t.id = ticketId ∧ t.type = TicketType.story) with
  | none => s
  | some story =>
      { s with
        tickets := s.tickets.filter fun t => t.id ≠ ticketId
        backlog := s.backlog ++ [{ story with status := TicketStatus.backlog }] }

/-- `clearBoard` action. -/
def clearBoard (s : BoardState) : BoardState :=
  { s with tickets := [], draggedTicketId := none }

/-- `clearAll` action. -/
def clearAll (_s : BoardState) : BoardState :=
  { tickets := [], backlog := [], draggedTicketId := none }

end BoardState

/-! ## Team store (src/stores/teamStore.ts) -/

/-- The state of `useTeamStore`. -/
structure TeamState where
  developers : List Developer
  totalVelocity : ℚ
  candidates : List Developer
  maxTeamSize : ℕ
deriving DecidableEq

/-- `d.trait?.velocityAura ?? 0` for one developer. -/
def auraOf (d : Developer) : ℚ :=
  ((d.trait.bind fun t => t.velocityAura).getD 0)

/-- `d.trait?.blockerRateReduction ?? 0` for one developer. -/
def blockerReductionOf (d : Developer) : ℚ :=
  ((d.trait.bind fun t => t.blockerRateReduction).getD 0)

/-- `computeTotalVelocity` from teamStore.ts: sum of the roster's velocities
times `1 + ` the sum of all `velocityAura` trait values. -/
def computeTotalVelocity (developers : List Developer) : ℚ :=
  (developers.foldl (fun sum d => sum + d.velocity) 0) *
    (1 + developers.foldl (fun sum d => sum + auraOf d) 0)

namespace TeamState

/-- `addDeveloper` action: append to the roster unless it is already full. -/
def addDeveloper (dev : Developer) (s : TeamState) : TeamState :=
  if s.developers.length ≥ s.maxTeamSize then s
  else
    let updatedDevs := s.developers ++ [dev]
    { s with developers := updatedDevs, totalVelocity := computeTotalVelocity updatedDevs }

/-- `refreshCandidates` action. -/
def refreshCandidates (candidates : List Developer) (s : TeamState) : TeamState :=
  { s with candidates := candidates }

/-- `hireDeveloper` action: move a candidate to the roster unless the roster is
full or the id is unknown, recomputing the total velocity. -/
def hireDeveloper (candidateId : String) (s : TeamState) : TeamState :=
  if s.developers.length ≥ s.maxTeamSize then s
  else
    match s.candidates.find? (fun c => c.id = candidateId) with
    | none => s
    | some candidate =>
        let updatedDevs := s.developers ++ [candidate]
        { s with
          developers := updatedDevs
          totalVelocity := computeTotalVelocity updatedDevs
          candidates := s.candidates.filter fun c => c.id ≠ candidateId }

/-- `updateVelocity` action. -/
def updateVelocity (s : TeamState) : TeamState :=
  { s with totalVelocity := computeTotalVelocity s.developers }

end TeamState

/-- `defaultDeveloper` from teamStore.ts. -/
def defaultDeveloper : Developer :=
  { id := "dev-001"
    name := "Alex the Intern"
    archetype := DeveloperArchetype.junior
    velocity := BASE_DEVELOPER_VELOCITY
    avatar := "dev"
    trait := none
    hireCost := none }

/-- The team store's initial state. -/
def initialTeamState : TeamState :=
  { developers := [defaultDeveloper]
    totalVelocity := computeTotalVelocity [defaultDeveloper]
    candidates := []
    maxTeamSize := MAX_TEAM_SIZE }

/-! ## Sprint store (src/stores/sprintStore.ts) -/

/-- The state of `useSprintStore`. -/
structure SprintState where
  phase : SprintPhase
  currentDay : ℕ
  totalDays : ℕ
  cashOnHand : ℚ
  currentContract : Option Contract
  sprintNumber : ℕ
deriving DecidableEq

/-- `initialState` from sprintStore.ts. -/
def initialSprintState : SprintState :=
  { phase := SprintPhase.idle
    currentDay := 0
    totalDays := DEFAULT_SPRINT_DAYS
    cashOnHand := STARTING_CASH
    currentContract := none
    sprintNumber := 0 }

namespace SprintState

/-- `acceptContract` action: unconditionally enter planning for the contract. -/
def acceptContract (contract : Contract) (s : SprintState) : SprintState :=
  { s with
    phase := SprintPhase.planning
    currentDay := 1
    totalDays := contract.sprintDays
    currentContract := some contract
    sprintNumber := s.sprintNumber + 1 }

/-- `startActivePhase` action. -/
def startActivePhase (s : SprintState) : SprintState :=
  { s with phase := SprintPhase.active }

/-- `advanceDay` action. -/
def advanceDay (s : SprintState) : SprintState :=
  { s with currentDay := s.currentDay + 1 }

/-- `endSprint` action. -/
def endSprint (s : SprintState) : SprintState :=
  { s with phase := SprintPhase.review }

/-- `advanceContractSprint` action: next sprint of the same contract; a no-op
only when no contract is active. -/
def advanceContractSprint (s : SprintState) : SprintState :=
  match s.currentContract with
  | none => s
  | some c =>
      { s with
        phase := SprintPhase.planning
        currentDay := 1
        currentContract := some { c with currentSprint := c.currentSprint + 1 }
        sprintNumber := s.sprintNumber + 1 }

/-- `collectPayout` action. -/
def collectPayout (amount : ℚ) (s : SprintState) : SprintState :=
  { s with
    cashOnHand := s.cashOnHand + amount
    phase := SprintPhase.idle
    currentContract := none
    currentDay := 0 }

/-- `spendCash` action. -/
def spendCash (amount : ℚ) (s : SprintState) : SprintState :=
  { s with cashOnHand := max 0 (s.cashOnHand - amount) }

end SprintState

/-! ## UI store (src/stores/uiStore.ts) -/

/-- The state of `useUIStore`. -/
structure UIState where
  showSprintResult : Bool
  lastSprintResult : Option SprintResult
  toastMessage : Option String
  canShipEarly : Bool
deriving DecidableEq

namespace UIState

/-- `showResult` action. -/
def showResult (result : SprintResult) (s : UIState) : UIState :=
  { s with
    lastSprintResult := some result
    showSprintResult := true
    canShipEarly := false }

/-- `dismissResult` action. -/
def dismissResult (s : UIState) : UIState :=
  { s with showSprintResult := false }

/-- `toast` action. -/
def toast (message : String) (s : UIState) : UIState :=
  { s with toastMessage := some message }

/-- `setCanShipEarly` action. -/
def setCanShipEarly (value : Bool) (s : UIState) : UIState :=
  { s with canShipEarly := value }

end UIState

/-- The UI store's initial state. -/
def initialUIState : UIState :=
  { showSprintResult := false
    lastSprintResult := none
    toastMessage := none
    canShipEarly := false }

/-! ## Payout calculator (src/engine/PayoutCalculator.ts, two-mode version) -/

/-- `gradeFromRatio`: ranked threshold lookup, S at 100% down to F. -/
def gradeFromRatio (ratio : ℚ) : SprintGrade :=
  if ratio ≥ GRADE_THRESHOLDS_S then SprintGrade.S
  else if ratio ≥ GRADE_THRESHOLDS_A then SprintGrade.A
  else if ratio ≥ GRADE_THRESHOLDS_B then SprintGrade.B
  else if ratio ≥ GRADE_THRESHOLDS_C then SprintGrade.C
  else if ratio ≥ GRADE_THRESHOLDS_D then SprintGrade.D
  else SprintGrade.F

/-- `reduce((sum, t) => sum + t.storyPoints, 0)` over a ticket list. -/
def sumPoints (tickets : List Ticket) : ℚ :=
  tickets.foldl (fun sum t => sum + t.storyPoints) 0

/-- The story tickets of a list: `filter((t) => t.type === 'story')`. -/
def storyTicketsOf (tickets : List Ticket) : List Ticket :=
  tickets.filter fun t => t.type = TicketType.story

/-- The done tickets of a list: `filter((t) => t.status === 'done')`. -/
def doneTicketsOf (tickets : List Ticket) : List Ticket :=
  tickets.filter fun t => t.status = TicketStatus.done

/-- `calculateInterimResult` from PayoutCalculator.ts: progress summary for a
non-final sprint boundary; every cash field is zero. -/
def calculateInterimResult (contract : Contract) (sprintTickets : List Ticket)
    (allContractStories : List Ticket) (blockersSmashed : ℕ) : SprintResult :=
  let sprintStories := storyTicketsOf sprintTickets
  let sprintPointsCompleted := sumPoints (doneTicketsOf sprintStories)
  let sprintPointsTotal := sumPoints sprintStories
  let contractStories := storyTicketsOf allContractStories
  let contractPointsCompleted := sumPoints (doneTicketsOf contractStories)
  let contractPointsTotal := sumPoints contractStories
  let contractRatio :=
    if contractPointsTotal > 0 then contractPointsCompleted / contractPointsTotal else 0
  { kind := SprintResultKind.interim
    sprintNumber := contract.currentSprint
    totalSprints := contract.totalSprints
    ticketsCompleted := (doneTicketsOf sprintStories).length
    ticketsTotal := sprintStories.length
    pointsCompleted := sprintPointsCompleted
    pointsTotal := sprintPointsTotal
    contractPointsCompleted := contractPointsCompleted
    contractPointsTotal := contractPointsTotal
    blockersSmashed := blockersSmashed
    cashEarned := 0
    bonusEarned := 0
    earlyDeliveryBonus := 0
    daysRemaining := 0
    grade := gradeFromRatio contractRatio }

/-- The completion ratio `calculateFinalResult` computes over the contract's
story tickets: completed points over total points, 0 when the total is 0. -/
def contractCompletionRatio (allContractStories : List Ticket) : ℚ :=
  let storyTickets := storyTicketsOf allContractStories
  let contractPointsTotal := sumPoints storyTickets
  let contractPointsCompleted := sumPoints (doneTicketsOf storyTickets)
  if contractPointsTotal > 0 then contractPointsCompleted / contractPointsTotal else 0

/-- `calculateFinalResult` from PayoutCalculator.ts: contract close payout.
`pow` is the host's `Math.pow`, passed explicitly; the code computes
`Math.pow(completionRatio, CONTRACT_PAYOUT_CURVE)`. -/
def calculateFinalResult (pow : ℚ → ℚ → ℚ) (contract : Contract)
    (allContractStories : List Ticket) (blockersSmashed : ℕ)
    (daysRemaining : ℤ := 0) : SprintResult :=
  let storyTickets := storyTicketsOf allContractStories
  let contractPointsTotal := sumPoints storyTickets
  let contractPointsCompleted := sumPoints (doneTicketsOf storyTickets)
  let completionRatio := contractCompletionRatio allContractStories
  let curvedRatio := pow completionRatio CONTRACT_PAYOUT_CURVE
  let cashEarned := contract.payout * curvedRatio
  let bonusEarned :=
    if completionRatio ≥ 1 then cashEarned * PERFECT_COMPLETION_BONUS else 0
  let earlyDeliveryBonus :=
    if daysRemaining > 0 then
      contract.payout * EARLY_DELIVERY_BONUS_PER_DAY * (daysRemaining : ℚ)
    else 0
  let grade := gradeFromRatio completionRatio
  { kind := SprintResultKind.final
    sprintNumber := contract.currentSprint
    totalSprints := contract.totalSprints
    ticketsCompleted := (doneTicketsOf storyTickets).length
    ticketsTotal := storyTickets.length
    pointsCompleted := contractPointsCompleted
    pointsTotal := contractPointsTotal
    contractPointsCompleted := contractPointsCompleted
    contractPointsTotal := contractPointsTotal
    blockersSmashed := blockersSmashed
    cashEarned := cashEarned
    bonusEarned := bonusEarned
    earlyDeliveryBonus := earlyDeliveryBonus
    daysRemaining := daysRemaining
    grade := grade }

/-! ## Simulator state (SprintSimulator.ts module-level state + GameLoop.ts) -/

/-- The whole mutable world a tick can touch: the four stores, the
simulator's module-level counters, and the game loop's internals. -/
structure SimState where
  board : BoardState
  team : TeamState
  sprint : SprintState
  ui : UIState
  ticksThisDay : ℕ
  blockersSmashed : ℕ
  flowBurstTicksRemaining : ℕ
  running : Bool
  lastFrameTime : Option ℚ
  accumulator : ℚ
deriving DecidableEq

/-- `GameLoop.stop()`: stop scheduling, reset the timestamp and accumulator. -/
def gameLoopStop (s : SimState) : SimState :=
  { s with running := false, lastFrameTime := none, accumulator := 0 }

/-- `GameLoop.start()`: idempotent start; resets timestamp and accumulator. -/
def gameLoopStart (s : SimState) : SimState :=
  if s.running then s
  else { s with running := true, lastFrameTime := none, accumulator := 0 }

/-- The random draws a single tick consumes: the `Math.random()` value behind
`rollChance(effectiveBlockerRate)`, and the generated blocker's id and title. -/
structure TickRng where
  roll : ℚ
  blockerId : String
  blockerTitle : String

/-- The WIP penalty multiplier computed in `tick`:
`Math.max(WIP_PENALTY_FLOOR, 1 - Math.max(0, doing - devCount) * WIP_OVERAGE_PENALTY)`. -/
def wipMultiplierCalc (doingCount devCount : ℕ) : ℚ :=
  max WIP_PENALTY_FLOOR
    (1 - ((max 0 ((doingCount : ℤ) - (devCount : ℤ)) : ℤ) : ℚ) * WIP_OVERAGE_PENALTY)

/-- Step 1–2 of `tick`: when no blocker is in 'doing', distribute the team's
effective velocity evenly over the in-progress stories via `progressTicket`;
the flow-burst counter is decremented inside this branch. -/
def progressStep (s : SimState) : SimState :=
  let isBlocked :=
    (s.board.tickets.filter fun t =>
      t.type = TicketType.blocker ∧ t.status = TicketStatus.doing).length > 0
  if isBlocked then s
  else
    let doingStories :=
      s.board.tickets.filter fun t =>
        t.type = TicketType.story ∧ t.status = TicketStatus.doing
    if doingStories.length > 0 then
      let wipMultiplier := wipMultiplierCalc doingStories.length s.team.developers.length
      let fb :=
        if s.flowBurstTicksRemaining > 0 then s.flowBurstTicksRemaining - 1
        else s.flowBurstTicksRemaining
      let flowMultiplier := if fb > 0 then FLOW_BURST_MULTIPLIER else 1
      let effectiveVelocity := s.team.totalVelocity * wipMultiplier * flowMultiplier
      let velocityPerTicket := effectiveVelocity / (doingStories.length : ℚ)
      { s with
        board := doingStories.foldl
          (fun b t => b.progressTicket t.id velocityPerTicket) s.board
        flowBurstTicksRemaining := fb }
    else s

/-- Step 3 of `tick`: promote each in-progress story whose points are complete
to 'done' (via `moveTicket`), arming the flow burst when any completed. -/
def promoteStep (s : SimState) : SimState :=
  let completed :=
    s.board.tickets.filter fun t =>
      t.type = TicketType.story ∧ t.status = TicketStatus.doing ∧
        t.pointsCompleted ≥ t.storyPoints
  let board2 := completed.foldl (fun b t => b.moveTicket t.id TicketStatus.done) s.board
  { s with
    board := board2
    flowBurstTicksRemaining :=
      if completed.length > 0 then FLOW_BURST_DURATION else s.flowBurstTicksRemaining }

/-- The blocker ticket `tick` materializes on a successful disruption roll:
zero story points, already in 'doing' (it starts blocking at once). -/
def spawnedBlocker (rng : TickRng) : Ticket :=
  { id := rng.blockerId
    type := TicketType.blocker
    title := rng.blockerTitle
    storyPoints := BLOCKER_STORY_POINTS
    pointsCompleted := 0
    status := TicketStatus.doing }

/-- Steps 4 and 4b of `tick`: roll for a blocker spawn (capped, reduced by QA
traits, only while incomplete stories remain), then surface the edge-triggered
"ship early" signal when everything is done and no blocker is active. Both
checks read the board as it stands after promotion, before any spawn. -/
def spawnStep (rng : TickRng) (s : SimState) : SimState :=
  let latestTickets := s.board.tickets
  let currentActiveBlockers :=
    (latestTickets.filter fun t =>
      t.type = TicketType.blocker ∧ t.status = TicketStatus.doing).length
  let hasIncompleteWork :=
    latestTickets.any fun t =>
      t.type = TicketType.story ∧ t.status ≠ TicketStatus.done
  let qaReduction :=
    s.team.developers.foldl (fun sum d => sum + blockerReductionOf d) 0
  let effectiveBlockerRate := BLOCKER_SPAWN_CHANCE_PER_TICK * max 0 (1 - qaReduction)
  let s3 :=
    if hasIncompleteWork ∧ rng.roll < effectiveBlockerRate ∧
        currentActiveBlockers < MAX_ACTIVE_BLOCKERS then
      { s with
        board := s.board.spawnBlocker (spawnedBlocker rng)
        ui := s.ui.toast "Blocker! All work is frozen!" }
    else s
  if ¬hasIncompleteWork ∧ currentActiveBlockers = 0 then
    if ¬s3.ui.canShipEarly then
      let ui4 := UIState.toast "All tickets done! Ship early for a bonus!"
        (UIState.setCanShipEarly true s3.ui)
      { s3 with ui := ui4 }
    else s3
  else s3

/-- The sprint-end branch of `tick` step 6: gather the contract-wide story
picture, stop the loop, enter review and show the interim or final result. -/
def sprintEndStep (pow : ℚ → ℚ → ℚ) (s : SimState) : SimState :=
  match s.sprint.currentContract with
  | none => s
  | some contract =>
      let boardTickets := s.board.tickets
      let backlogTickets := s.board.backlog
      let s6 := gameLoopStop { s with sprint := s.sprint.endSprint }
      let isFinalSprint := contract.currentSprint ≥ contract.totalSprints
      let allContractStories :=
        (contract.allStories.filter fun t => t.status = TicketStatus.done) ++
          (boardTickets.filter fun t => t.type = TicketType.story) ++ backlogTickets
      if isFinalSprint then
        let result := calculateFinalResult pow contract allContractStories s6.blockersSmashed
        { s6 with ui := s6.ui.showResult result }
      else
        let result := calculateInterimResult contract boardTickets allContractStories
          s6.blockersSmashed
        { s6 with ui := s6.ui.showResult result }

/-- Steps 5–6 of `tick`: count the tick toward the day; at `TICKS_PER_DAY`
reset the counter, advance the day, and finalize the sprint when the day
counter passes the sprint's budget. -/
def dayStep (pow : ℚ → ℚ → ℚ) (s : SimState) : SimState :=
  let t := s.ticksThisDay + 1
  if t ≥ TICKS_PER_DAY then
    let s5 := { s with ticksThisDay := 0, sprint := s.sprint.advanceDay }
    if s5.sprint.currentDay > s5.sprint.totalDays then sprintEndStep pow s5 else s5
  else { s with ticksThisDay := t }

/-- `tick` from SprintSimulator.ts: a no-op during planning, otherwise the
progress / promote / spawn / day-tracking pipeline. -/
def tick (pow : ℚ → ℚ → ℚ) (rng : TickRng) (s : SimState) : SimState :=
  if s.sprint.phase = SprintPhase.planning then s
  else dayStep pow (spawnStep rng (promoteStep (progressStep s)))

/-- `startSprint` from SprintSimulator.ts: planning → active, a no-op unless
the phase is planning; driven by the player's "Start Sprint" action. -/
def startSprint (s : SimState) : SimState :=
  if s.sprint.phase ≠ SprintPhase.planning then s
  else { s with sprint := s.sprint.startActivePhase }

/-- `handleAcceptContract` from GameScreen.tsx: the UI entry point that guards
on the idle phase, installs a freshly generated contract's stories as the
backlog, accepts the contract, resets the per-sprint sim counters
(`resetSimState`, whose candidate refresh receives the generated candidates
`cands`) and starts the game loop. -/
def handleAcceptContract (contract : Contract) (cands : List Developer)
    (s : SimState) : SimState :=
  if s.sprint.phase ≠ SprintPhase.idle then s
  else
    let board1 := (s.board.setBacklog contract.allStories).setTickets []
    let sprint1 := s.sprint.acceptContract contract
    gameLoopStart
      { s with
        board := board1
        sprint := sprint1
        ticksThisDay := 0
        blockersSmashed := 0
        flowBurstTicksRemaining := 0
        ui := s.ui.setCanShipEarly false
        team := s.team.refreshCandidates cands }

/-! ## Game loop (src/engine/GameLoop.ts) -/

/-- The drain loop inside `frame`: while a full tick interval is accumulated,
consume it and run one simulator tick, aborting (and zeroing the accumulator)
as soon as the phase leaves 'active'. The fuel bounds the recursion; `frame`
calls it with fuel 10, which `drain_accumulator_lt` below shows is enough for
the clamped accumulator, so the guard is false whenever the fuel runs out.
Returns the new state and the number of ticks executed. -/
def drain (pow : ℚ → ℚ → ℚ) : ℕ → List TickRng → SimState → SimState × ℕ
  | 0, _, s => (s, 0)
  | fuel + 1, rngs, s =>
      if s.accumulator ≥ TICK_INTERVAL_MS then
        let s2 := tick pow (rngs.headD ⟨0, "", ""⟩)
          { s with accumulator := s.accumulator - TICK_INTERVAL_MS }
        if s2.sprint.phase ≠ SprintPhase.active then
          ({ s2 with accumulator := 0 }, 1)
        else
          let r := drain pow fuel rngs.tail s2
          (r.1, r.2 + 1)
      else (s, 0)

/-- `frame` from GameLoop.ts: accumulate the clamped frame delta, then drain
ticks while 'active'; in any other phase discard the accumulator. Returns the
new state and the number of simulator ticks executed this wake-up. -/
def frame (pow : ℚ → ℚ → ℚ) (timestamp : ℚ) (rngs : List TickRng)
    (s : SimState) : SimState × ℕ :=
  if ¬s.running then (s, 0)
  else
    match s.lastFrameTime with
    | none => ({ s with lastFrameTime := some timestamp }, 0)
    | some lastTime =>
        let deltaTime := timestamp - lastTime
        let maxAccumulator := TICK_INTERVAL_MS * 10
        let s1 :=
          { s with
            lastFrameTime := some timestamp
            accumulator := min (s.accumulator + deltaTime) maxAccumulator }
        if s1.sprint.phase = SprintPhase.active then drain pow 10 rngs s1
        else ({ s1 with accumulator := 0 }, 0)

/-! ## Concrete fixtures used by scenarios, witnesses and counterexamples -/

/-- A 6-point story that is done. -/
def storyDone6 : Ticket :=
  { id := "s1", type := TicketType.story, title := "Implement Login API"
    storyPoints := 6, pointsCompleted := 6, status := TicketStatus.done }

/-- A 4-point story that is still todo. -/
def storyTodo4 : Ticket :=
  { id := "s2", type := TicketType.story, title := "Build Dashboard UI"
    storyPoints := 4, pointsCompleted := 0, status := TicketStatus.todo }

/-- A 5-point story in progress with 2 points done. -/
def storyDoing5 : Ticket :=
  { id := "s3", type := TicketType.story, title := "Add Payment Gateway"
    storyPoints := 5, pointsCompleted := 2, status := TicketStatus.doing }

/-- A blocker sitting in 'doing'. -/
def blockerDoing : Ticket :=
  { id := "b1", type := TicketType.blocker, title := "Server Down!"
    storyPoints := BLOCKER_STORY_POINTS, pointsCompleted := 0
    status := TicketStatus.doing }

/-- A two-sprint contract with a 1000 payout, on sprint 1. -/
def contractTwoSprints : Contract :=
  { id := "c1", clientName := "Acme Corp", allStories := []
    payout := 1000, sprintDays := 10, totalSprints := 2, currentSprint := 1 }

/-- A contract with a 2000 base payout (scenario D of the spec). -/
def contractPay2000 : Contract :=
  { id := "c2", clientName := "TechStart Inc", allStories := []
    payout := 2000, sprintDays := 10, totalSprints := 1, currentSprint := 1 }

end ScrumGame

namespace ScrumGame

/-! ## Theorems -/

/-- C9: at a non-final sprint boundary `calculateInterimResult` pays no cash
(cash, perfect-bonus and early-bonus fields are 0), reports per-sprint and
contract-wide point/ticket tallies computed from the supplied story sets, and
grades from the contract-wide ratio; in particular a contract with 10 total
points of which 6 are done after sprint 1 of 2 reports
`contractPointsCompleted = 6`, `contractPointsTotal = 10`, `cashEarned = 0`. -/
theorem calculateInterimResult_zero_cash_tallies :
    (∀ (contract : Contract) (sprintTickets allContractStories : List Ticket)
        (smashed : ℕ),
      (calculateInterimResult contract sprintTickets allContractStories
          smashed).kind = SprintResultKind.interim ∧
      (calculateInterimResult contract sprintTickets allContractStories
          smashed).cashEarned = 0 ∧
      (calculateInterimResult contract sprintTickets allContractStories
          smashed).bonusEarned = 0 ∧
      (calculateInterimResult contract sprintTickets allContractStories
          smashed).earlyDeliveryBonus = 0 ∧
      (calculateInterimResult contract sprintTickets allContractStories
          smashed).contractPointsCompleted
        = sumPoints (doneTicketsOf (storyTicketsOf allContractStories)) ∧
      (calculateInterimResult contract sprintTickets allContractStories
          smashed).contractPointsTotal
        = sumPoints (storyTicketsOf allContractStories) ∧
      (calculateInterimResult contract sprintTickets allContractStories
          smashed).pointsCompleted
        = sumPoints (doneTicketsOf (storyTicketsOf sprintTickets)) ∧
      (calculateInterimResult contract sprintTickets allContractStories
          smashed).pointsTotal = sumPoints (storyTicketsOf sprintTickets) ∧
      (calculateInterimResult contract sprintTickets allContractStories
          smashed).ticketsCompleted
        = (doneTicketsOf (storyTicketsOf sprintTickets)).length ∧
      (calculateInterimResult contract sprintTickets allContractStories
          smashed).ticketsTotal = (storyTicketsOf sprintTickets).length ∧
      (calculateInterimResult contract sprintTickets allContractStories
          smashed).grade
        = gradeFromRatio
            (if sumPoints (storyTicketsOf allContractStories) > 0 then
              sumPoints (doneTicketsOf (storyTicketsOf allContractStories)) /
                sumPoints (storyTicketsOf allContractStories)
            else 0)) ∧
    (calculateInterimResult contractTwoSprints [storyDone6, storyTodo4]
        [storyDone6, storyTodo4] 0).contractPointsCompleted = 6 ∧
    (calculateInterimResult contractTwoSprints [storyDone6, storyTodo4]
        [storyDone6, storyTodo4] 0).contractPointsTotal = 10 ∧
    (calculateInterimResult contractTwoSprints [storyDone6, storyTodo4]
        [storyDone6, storyTodo4] 0).cashEarned = 0 := by
  refine ⟨fun contract sprintTickets allContractStories smashed => ?_, ?_, ?_, ?_⟩
  · exact ⟨rfl, rfl, rfl, rfl, rfl, rfl, rfl, rfl, rfl, rfl, rfl⟩
  · simp [calculateInterimResult, sumPoints, doneTicketsOf, storyTicketsOf,
      contractTwoSprints, storyDone6, storyTodo4]
  · simp [calculateInterimResult, sumPoints, doneTicketsOf, storyTicketsOf,
      contractTwoSprints, storyDone6, storyTodo4]
    norm_num
  · rfl

/-- C1: `calculateFinalResult` computes the completion ratio as completed
story points over total story points (0 when the total is 0) and returns
`cashEarned = basePayout × pow(completionRatio, 1.3)`; at ratio 1 the cash is
exactly the base payout and the perfect bonus is 0.25 of that curved cash; at
ratio 0 both cash and bonus are 0. The two `pow` hypotheses are the host
`Math.pow` facts the code relies on. -/
theorem calculateFinalResult_payout_curve (pow : ℚ → ℚ → ℚ)
    (hpow1 : pow 1 CONTRACT_PAYOUT_CURVE = 1)
    (hpow0 : pow 0 CONTRACT_PAYOUT_CURVE = 0)
    (contract : Contract) (stories : List Ticket) (smashed : ℕ) (days : ℤ) :
    ((calculateFinalResult pow contract stories smashed days).cashEarned
        = contract.payout * pow (contractCompletionRatio stories)
            CONTRACT_PAYOUT_CURVE) ∧
    (sumPoints (storyTicketsOf stories) = 0 → contractCompletionRatio stories = 0) ∧
    (contractCompletionRatio stories = 1 →
      (calculateFinalResult pow contract stories smashed days).cashEarned
          = contract.payout ∧
      (calculateFinalResult pow contract stories smashed days).bonusEarned
          = (calculateFinalResult pow contract stories smashed days).cashEarned *
              PERFECT_COMPLETION_BONUS) ∧
    (contractCompletionRatio stories = 0 →
      (calculateFinalResult pow contract stories smashed days).cashEarned = 0 ∧
      (calculateFinalResult pow contract stories smashed days).bonusEarned = 0) := by
  refine ⟨rfl, fun h0 => ?_, fun h1 => ?_, fun h0 => ?_⟩
  · simp [contractCompletionRatio, h0]
  · constructor
    · show contract.payout * pow (contractCompletionRatio stories)
        CONTRACT_PAYOUT_CURVE = contract.payout
      rw [h1, hpow1, mul_one]
    · show (if contractCompletionRatio stories ≥ 1 then
          contract.payout * pow (contractCompletionRatio stories)
            CONTRACT_PAYOUT_CURVE * PERFECT_COMPLETION_BONUS
        else 0) = _
      rw [if_pos (le_of_eq h1.symm)]
      rfl
  · constructor
    · show contract.payout * pow (contractCompletionRatio stories)
        CONTRACT_PAYOUT_CURVE = 0
      rw [h0, hpow0, mul_zero]
    · show (if contractCompletionRatio stories ≥ 1 then
          contract.payout * pow (contractCompletionRatio stories)
            CONTRACT_PAYOUT_CURVE * PERFECT_COMPLETION_BONUS
        else 0) = 0
      rw [if_neg (by rw [h0]; norm_num)]

/-- Witness for C1 at `pow := fun x _ => x` (which satisfies both `Math.pow`
facts definitionally) on a fully completed one-story contract. -/
theorem calculateFinalResult_payout_curve_witness :
    (calculateFinalResult (fun x _ => x) contractTwoSprints [storyDone6] 0
        0).cashEarned = 1000 ∧
    (calculateFinalResult (fun x _ => x) contractTwoSprints [storyDone6] 0
        0).bonusEarned = 250 := by
  have h := calculateFinalResult_payout_curve (fun x _ => x) rfl rfl
    contractTwoSprints [storyDone6] 0 0
  have hr : contractCompletionRatio [storyDone6] = 1 := by
    simp [contractCompletionRatio, sumPoints, doneTicketsOf, storyTicketsOf,
      storyDone6]
  obtain ⟨-, -, h3, -⟩ := h
  obtain ⟨hc, hb⟩ := h3 hr
  refine ⟨?_, ?_⟩
  · rw [hc]; rfl
  · rw [hb, hc]; norm_num [PERFECT_COMPLETION_BONUS, contractTwoSprints]

/-- C8: the early-delivery bonus is `basePayout × 0.05 × daysRemaining` when
days remain (computed off the base payout, not the curved cash), 0 when
`daysRemaining = 0`; with 3 days remaining and a 2000 base payout it is 300
regardless of the story set. -/
theorem calculateFinalResult_early_bonus (pow : ℚ → ℚ → ℚ)
    (contract : Contract) (stories : List Ticket) (smashed : ℕ) (days : ℤ) :
    ((calculateFinalResult pow contract stories smashed days).earlyDeliveryBonus
        = if days > 0 then
            contract.payout * EARLY_DELIVERY_BONUS_PER_DAY * (days : ℚ)
          else 0) ∧
    ((calculateFinalResult pow contract stories smashed 0).earlyDeliveryBonus
        = 0) ∧
    ((calculateFinalResult pow contractPay2000 stories smashed
        3).earlyDeliveryBonus = 300) := by
  refine ⟨rfl, rfl, ?_⟩
  show (if (3 : ℤ) > 0 then
    contractPay2000.payout * EARLY_DELIVERY_BONUS_PER_DAY * ((3 : ℤ) : ℚ)
  else 0) = 300
  norm_num [contractPay2000, EARLY_DELIVERY_BONUS_PER_DAY]

/-- C7: the WIP penalty multiplier used by `tick` equals
`max(0.40, 1 − 0.10 × max(0, doing − devs))` and never falls below the 0.40
floor, however many excess in-progress stories exist. -/
theorem wipMultiplier_formula_and_floor (doing devs : ℕ) :
    (wipMultiplierCalc doing devs
        = max (2 / 5 : ℚ)
            (1 - (1 / 10 : ℚ) * max 0 ((doing : ℚ) - (devs : ℚ)))) ∧
    WIP_PENALTY_FLOOR ≤ wipMultiplierCalc doing devs ∧
    (2 / 5 : ℚ) ≤ wipMultiplierCalc doing devs := by
  refine ⟨?_, le_max_left _ _, le_max_left _ _⟩
  unfold wipMultiplierCalc WIP_PENALTY_FLOOR WIP_OVERAGE_PENALTY
  rw [mul_comm]
  push_cast
  rfl

/-- `foldl (fun s x => s + f x) init l = init + (l.map f).sum`. -/
theorem foldl_add_eq_sum {α : Type} (f : α → ℚ) (l : List α) (init : ℚ) :
    l.foldl (fun sum x => sum + f x) init = init + (l.map f).sum := by
  induction l generalizing init with
  | nil => simp
  | cons x l ih => simp [ih, add_assoc]

/-- A 5-developer roster, over the team-size cap. -/
def fullRoster : List Developer :=
  [defaultDeveloper, { defaultDeveloper with id := "dev-002" },
    { defaultDeveloper with id := "dev-003" },
    { defaultDeveloper with id := "dev-004" }]

/-- A concrete full team (4 developers) with one candidate. -/
def fullTeam : TeamState :=
  { developers := fullRoster
    totalVelocity := computeTotalVelocity fullRoster
    candidates := [{ defaultDeveloper with id := "cand-01" }]
    maxTeamSize := MAX_TEAM_SIZE }

/-- C10: the roster never grows past `maxTeamSize`: both `addDeveloper` and
`hireDeveloper` are no-ops on a full roster, `hireDeveloper` is also a no-op
for an unknown candidate id, a successful hire appends the candidate, removes
it from the pool and recomputes `totalVelocity` as
`(Σ developer velocities) × (1 + Σ velocityAura traits)`, and the team-size
cap starts at `MAX_TEAM_SIZE = 4` and is never altered by either action. -/
theorem team_size_cap_and_hire (s : TeamState) (dev : Developer) (cid : String) :
    (s.developers.length ≥ s.maxTeamSize →
      s.addDeveloper dev = s ∧ s.hireDeveloper cid = s) ∧
    (s.candidates.find? (fun c => c.id = cid) = none → s.hireDeveloper cid = s) ∧
    (∀ c, s.developers.length < s.maxTeamSize →
      s.candidates.find? (fun c => c.id = cid) = some c →
      s.hireDeveloper cid
        = { developers := s.developers ++ [c]
            totalVelocity := computeTotalVelocity (s.developers ++ [c])
            candidates := s.candidates.filter fun x => x.id ≠ cid
            maxTeamSize := s.maxTeamSize }) ∧
    (s.developers.length ≤ s.maxTeamSize →
      (s.addDeveloper dev).developers.length ≤ s.maxTeamSize ∧
      (s.hireDeveloper cid).developers.length ≤ s.maxTeamSize) ∧
    (computeTotalVelocity s.developers
      = (s.developers.map fun d => d.velocity).sum *
          (1 + (s.developers.map auraOf).sum)) ∧
    (s.addDeveloper dev).maxTeamSize = s.maxTeamSize ∧
    (s.hireDeveloper cid).maxTeamSize = s.maxTeamSize ∧
    initialTeamState.maxTeamSize = 4 := by
  have hadd_full : s.developers.length ≥ s.maxTeamSize → s.addDeveloper dev = s := by
    intro h
    simp [TeamState.addDeveloper, h]
  have hhire_full : s.developers.length ≥ s.maxTeamSize → s.hireDeveloper cid = s := by
    intro h
    simp [TeamState.hireDeveloper, h]
  have hvel : computeTotalVelocity s.developers
      = (s.developers.map fun d => d.velocity).sum *
          (1 + (s.developers.map auraOf).sum) := by
    unfold computeTotalVelocity
    rw [foldl_add_eq_sum, foldl_add_eq_sum]
    simp
  refine ⟨fun h => ⟨hadd_full h, hhire_full h⟩, fun h => ?_, fun c hlt hfind => ?_,
    fun h => ⟨?_, ?_⟩, hvel, ?_, ?_, rfl⟩
  · unfold TeamState.hireDeveloper
    split
    · rfl
    · rw [h]
  · unfold TeamState.hireDeveloper
    rw [if_neg (not_le.mpr hlt), hfind]
  · by_cases h2 : s.developers.length ≥ s.maxTeamSize
    · rw [hadd_full h2]; exact h
    · unfold TeamState.addDeveloper
      rw [if_neg h2]
      simpa using Nat.lt_of_not_le h2
  · by_cases h2 : s.developers.length ≥ s.maxTeamSize
    · rw [hhire_full h2]; exact h
    · unfold TeamState.hireDeveloper
      rw [if_neg h2]
      split
      · exact h
      · simpa using Nat.lt_of_not_le h2
  · unfold TeamState.addDeveloper
    split <;> rfl
  · unfold TeamState.hireDeveloper
    split
    · rfl
    · split <;> rfl

/-- Witness for C10 at a concrete full team: both hire paths are no-ops. -/
theorem team_size_cap_and_hire_witness :
    fullTeam.addDeveloper defaultDeveloper = fullTeam ∧
    fullTeam.hireDeveloper "cand-01" = fullTeam := by
  have h := team_size_cap_and_hire fullTeam defaultDeveloper "cand-01"
  exact h.1 (by simp [fullTeam, fullRoster, MAX_TEAM_SIZE])

/-- An empty baseline simulation world. -/
def simBase : SimState :=
  { board := { tickets := [], backlog := [], draggedTicketId := none }
    team := initialTeamState
    sprint := initialSprintState
    ui := initialUIState
    ticksThisDay := 0
    blockersSmashed := 0
    flowBurstTicksRemaining := 0
    running := false
    lastFrameTime := none
    accumulator := 0 }

/-- A sprint store state caught mid-active-sprint. -/
def activeSprint : SprintState :=
  { phase := SprintPhase.active
    currentDay := 3
    totalDays := 10
    cashOnHand := 0
    currentContract := some contractTwoSprints
    sprintNumber := 1 }

/-- A review state on the last sprint of its contract
(`currentSprint = totalSprints = 2`). -/
def reviewLastSprint : SprintState :=
  { phase := SprintPhase.review
    currentDay := 11
    totalDays := 10
    cashOnHand := 0
    currentContract := some { contractTwoSprints with currentSprint := 2 }
    sprintNumber := 2 }

/-- C4 counterexample: the store-level transitions are not guarded.
`acceptContract` called while the phase is 'active' (not idle) changes the
state — it forces the phase to 'planning' — and `advanceContractSprint`
called when `currentSprint = totalSprints = 2` still increments the sprint
index to 3. -/
theorem phase_ops_guard_cex :
    activeSprint.phase ≠ SprintPhase.idle ∧
    SprintState.acceptContract contractPay2000 activeSprint ≠ activeSprint ∧
    (SprintState.acceptContract contractPay2000 activeSprint).phase
      = SprintPhase.planning ∧
    reviewLastSprint.currentContract
      = some { contractTwoSprints with currentSprint := 2 } ∧
    contractTwoSprints.totalSprints = 2 ∧
    SprintState.advanceContractSprint reviewLastSprint ≠ reviewLastSprint ∧
    (SprintState.advanceContractSprint reviewLastSprint).currentContract
      = some { contractTwoSprints with currentSprint := 3 } := by
  refine ⟨by simp [activeSprint], ?_, rfl, rfl, rfl, ?_, rfl⟩
  · intro h
    have := congrArg SprintState.phase h
    simp [SprintState.acceptContract, activeSprint] at this
  · intro h
    have := congrArg SprintState.phase h
    simp [SprintState.advanceContractSprint, reviewLastSprint] at this

/-- C4 amended: the store actions themselves are unguarded —
`acceptContract` unconditionally installs the contract and enters planning
(the idle guard lives in the UI caller `handleAcceptContract`, which is a
no-op outside idle), and `advanceContractSprint` is a no-op only when no
contract is active, otherwise incrementing `currentSprint` and resetting the
day counter to 1 regardless of `totalSprints`. -/
theorem phase_ops_unguarded_spec (s : SprintState) (simS : SimState)
    (c : Contract) (cands : List Developer) :
    (SprintState.acceptContract c s
      = { phase := SprintPhase.planning
          currentDay := 1
          totalDays := c.sprintDays
          cashOnHand := s.cashOnHand
          currentContract := some c
          sprintNumber := s.sprintNumber + 1 }) ∧
    (s.currentContract = none → SprintState.advanceContractSprint s = s) ∧
    (∀ c0, s.currentContract = some c0 →
      SprintState.advanceContractSprint s
        = { s with
            phase := SprintPhase.planning
            currentDay := 1
            currentContract := some { c0 with currentSprint := c0.currentSprint + 1 }
            sprintNumber := s.sprintNumber + 1 }) ∧
    (simS.sprint.phase ≠ SprintPhase.idle →
      handleAcceptContract c cands simS = simS) := by
  refine ⟨rfl, fun h => ?_, fun c0 h => ?_, fun h => ?_⟩
  · simp [SprintState.advanceContractSprint, h]
  · simp [SprintState.advanceContractSprint, h]
  · simp [handleAcceptContract, h]

/-- Witness for C4's amended statement on concrete states. -/
theorem phase_ops_unguarded_spec_witness :
    SprintState.advanceContractSprint initialSprintState = initialSprintState ∧
    handleAcceptContract contractPay2000 []
        { simBase with sprint := activeSprint }
      = { simBase with sprint := activeSprint } := by
  have h := phase_ops_unguarded_spec initialSprintState
    { simBase with sprint := activeSprint } contractPay2000 []
  exact ⟨h.2.1 rfl, h.2.2.2 (by simp [activeSprint])⟩

/-- A simulation world sitting in the planning phase with the loop running. -/
def planningSim : SimState :=
  { simBase with
    sprint :=
      { initialSprintState with
        phase := SprintPhase.planning
        currentDay := 1
        currentContract := some contractTwoSprints }
    running := true
    lastFrameTime := some 0 }

/-- C5 counterexample: the clock does not drive ticks during Planning. A
frame arriving a full in-game day (and more) after the last one, while the
phase is planning, executes zero simulator ticks, discards the accumulator
and leaves the phase at planning — no Planning → Active transition fires;
moreover the simulator tick itself is a no-op in planning. -/
theorem planning_auto_transition_cex :
    (frame (fun x _ => x) (TICK_INTERVAL_MS * 10) [] planningSim).2 = 0 ∧
    (frame (fun x _ => x) (TICK_INTERVAL_MS * 10) []
        planningSim).1.sprint.phase = SprintPhase.planning ∧
    (frame (fun x _ => x) (TICK_INTERVAL_MS * 10) []
        planningSim).1.accumulator = 0 ∧
    tick (fun x _ => x) ⟨0, "", ""⟩ planningSim = planningSim := by
  refine ⟨?_, ?_, ?_, ?_⟩ <;>
    simp [frame, tick, planningSim, simBase, initialSprintState]

/-- C5 amended: Planning is not clock-driven. While the phase is planning
the game loop runs zero ticks per frame and leaves the sprint state alone
(only 'active' is tickable; the accumulator is discarded), the simulator
tick is a no-op, and the Planning → Active transition happens through the
external `startSprint` action (the player's "Start Sprint" tap), which is
legal only in planning and a no-op in any other phase. -/
theorem planning_to_active_via_startSprint (pow : ℚ → ℚ → ℚ) (ts : ℚ)
    (rngs : List TickRng) (rng : TickRng) (s : SimState) :
    (s.sprint.phase = SprintPhase.planning →
      (frame pow ts rngs s).2 = 0 ∧
      (frame pow ts rngs s).1.sprint = s.sprint ∧
      tick pow rng s = s ∧
      startSprint s = { s with sprint := s.sprint.startActivePhase } ∧
      (startSprint s).sprint.phase = SprintPhase.active) ∧
    (s.sprint.phase ≠ SprintPhase.planning → startSprint s = s) := by
  constructor
  · intro h
    have hframe : (frame pow ts rngs s).2 = 0 ∧ (frame pow ts rngs s).1.sprint = s.sprint := by
      unfold frame
      by_cases hr : s.running
      · rcases hl : s.lastFrameTime with - | t0
        · simp [hr, hl]
        · simp [hr, hl, h]
      · simp [hr]
    refine ⟨hframe.1, hframe.2, ?_, ?_, ?_⟩
    · simp [tick, h]
    · simp [startSprint, h]
    · simp [startSprint, h, SprintState.startActivePhase]
  · intro h
    simp [startSprint, h]

/-! ## Per-tick frame lemmas for the blocking rule (C2) -/

/-- Everything about a ticket except its status: id, points completed,
points required, kind. -/
def ticketCore (t : Ticket) : String × ℚ × ℚ × TicketType :=
  (t.id, t.pointsCompleted, t.storyPoints, t.type)

theorem moveTicket_map_core (b : BoardState) (tid : String) (col : TicketStatus) :
    ((b.moveTicket tid col).tickets).map ticketCore = b.tickets.map ticketCore := by
  unfold BoardState.moveTicket
  rw [List.map_map]
  refine List.map_congr_left fun t _ => ?_
  by_cases h : t.id = tid <;> simp [h, ticketCore]

theorem foldl_moveTicket_map_core (l : List Ticket) (b : BoardState) :
    (((l.foldl (fun acc t => acc.moveTicket t.id TicketStatus.done) b)).tickets).map
        ticketCore
      = b.tickets.map ticketCore := by
  induction l generalizing b with
  | nil => rfl
  | cons t l ih => rw [List.foldl_cons, ih, moveTicket_map_core]

theorem progressStep_blocked (s : SimState)
    (hblock : ∃ b ∈ s.board.tickets,
      b.type = TicketType.blocker ∧ b.status = TicketStatus.doing) :
    progressStep s = s := by
  unfold progressStep
  have hpos : (s.board.tickets.filter fun t =>
      t.type = TicketType.blocker ∧ t.status = TicketStatus.doing).length > 0 := by
    obtain ⟨b, hb, h1, h2⟩ := hblock
    have hmem : b ∈ s.board.tickets.filter fun t =>
        t.type = TicketType.blocker ∧ t.status = TicketStatus.doing :=
      List.mem_filter.mpr ⟨hb, by simp [h1, h2]⟩
    exact List.length_pos.mpr (List.ne_nil_of_mem hmem)
  rw [if_pos hpos]

theorem promoteStep_map_core (s : SimState) :
    ((promoteStep s).board.tickets).map ticketCore
      = s.board.tickets.map ticketCore := by
  unfold promoteStep
  exact foldl_moveTicket_map_core _ _

theorem spawnStep_tickets_extends (rng : TickRng) (s : SimState) :
    ∃ rest, (spawnStep rng s).board.tickets = s.board.tickets ++ rest := by
  unfold spawnStep
  simp only []
  repeat' split
  all_goals
    first
      | exact ⟨[_], rfl⟩
      | exact ⟨[], (List.append_nil _).symm⟩

theorem dayStep_board (pow : ℚ → ℚ → ℚ) (s : SimState) :
    (dayStep pow s).board = s.board := by
  unfold dayStep sprintEndStep gameLoopStop
  simp only []
  repeat' split
  all_goals rfl

/-- C2: whenever some blocker ticket sits in 'doing' at the start of a tick,
the tick leaves every pre-existing ticket's `pointsCompleted` (together with
its id, required points and kind) unchanged — story progress is suspended
outright, not merely slowed. -/
theorem blocker_gates_all_progress (pow : ℚ → ℚ → ℚ) (rng : TickRng)
    (s : SimState)
    (hblock : ∃ b ∈ s.board.tickets,
      b.type = TicketType.blocker ∧ b.status = TicketStatus.doing) :
    ((tick pow rng s).board.tickets.take s.board.tickets.length).map ticketCore
      = s.board.tickets.map ticketCore := by
  by_cases hph : s.sprint.phase = SprintPhase.planning
  · simp [tick, hph, List.take_length]
  · have htick : tick pow rng s = dayStep pow (spawnStep rng (promoteStep s)) := by
      rw [tick, if_neg hph, progressStep_blocked s hblock]
    rw [htick, dayStep_board]
    obtain ⟨rest, hrest⟩ := spawnStep_tickets_extends rng (promoteStep s)
    rw [hrest]
    have hlen : (promoteStep s).board.tickets.length = s.board.tickets.length := by
      have := congrArg List.length (promoteStep_map_core s)
      simpa using this
    rw [← hlen, List.take_left, promoteStep_map_core]

/-- A world mid-active-sprint with a blocker in 'doing' next to an
in-progress story. -/
def blockedSim : SimState :=
  { simBase with
    sprint := activeSprint
    board := { tickets := [blockerDoing, storyDoing5], backlog := []
               draggedTicketId := none } }

/-- Witness for C2 on a concrete blocked board. -/
theorem blocker_gates_all_progress_witness :
    ((tick (fun x _ => x) ⟨1, "nb", "Merge Conflict!"⟩
          blockedSim).board.tickets.take
        blockedSim.board.tickets.length).map ticketCore
      = blockedSim.board.tickets.map ticketCore := by
  refine blocker_gates_all_progress (fun x _ => x) ⟨1, "nb", "Merge Conflict!"⟩
    blockedSim ⟨blockerDoing, ?_, rfl, rfl⟩
  simp [blockedSim, simBase]

/-! ## The points invariant (C3) -/

/-- The per-ticket invariant: `0 ≤ pointsCompleted ≤ storyPoints`. -/
def TicketOK (t : Ticket) : Prop :=
  0 ≤ t.pointsCompleted ∧ t.pointsCompleted ≤ t.storyPoints

/-- A developer record with a non-negative velocity and aura (what the
candidate generator produces: velocities drawn from positive archetype
ranges, auras fixed at 0 or +0.10). -/
def DevOK (d : Developer) : Prop :=
  0 ≤ d.velocity ∧ 0 ≤ auraOf d

/-- The whole-world invariant: every ticket on the board and in the backlog
satisfies `TicketOK`, and the roster data keeps the aggregate velocity
non-negative. -/
def StateOK (s : SimState) : Prop :=
  (∀ t ∈ s.board.tickets, TicketOK t) ∧
  (∀ t ∈ s.board.backlog, TicketOK t) ∧
  (∀ d ∈ s.team.developers, DevOK d) ∧
  (∀ d ∈ s.team.candidates, DevOK d) ∧
  0 ≤ s.team.totalVelocity

/-- What `generateContract` guarantees of every story it creates: a story
ticket starting in the backlog with 0 points completed and 1–5 story points
(`STORY_POINT_RANGE`). -/
def generatedStory (t : Ticket) : Prop :=
  t.type = TicketType.story ∧ t.pointsCompleted = 0 ∧
    1 ≤ t.storyPoints ∧ t.storyPoints ≤ 5 ∧ t.status = TicketStatus.backlog

/-- What `generateCandidates` guarantees of every candidate it creates:
velocity drawn from a positive archetype range, and trait values (velocity
aura, blocker-rate reduction) that are 0 or positive. -/
def generatedCandidate (d : Developer) : Prop :=
  0 ≤ d.velocity ∧ 0 ≤ auraOf d ∧ 0 ≤ blockerReductionOf d

/-- The states reachable from the initial stores through the board, team and
simulator operations, with each generator-produced input constrained to the
shape the generator actually produces. -/
inductive Reach : SimState → Prop where
  | init : Reach simBase
  | accept (s : SimState) (c : Contract) (cands : List Developer)
      (hc : ∀ t ∈ c.allStories, generatedStory t)
      (hcands : ∀ d ∈ cands, generatedCandidate d) :
      Reach s → Reach (handleAcceptContract c cands s)
  | commit (s : SimState) (tid : String) :
      Reach s → Reach { s with board := s.board.commitStory tid }
  | uncommit (s : SimState) (tid : String) :
      Reach s → Reach { s with board := s.board.uncommitStory tid }
  | move (s : SimState) (tid : String) (col : TicketStatus) :
      Reach s → Reach { s with board := s.board.moveTicket tid col }
  | progress (s : SimState) (tid : String) (amount : ℚ) (h : 0 ≤ amount) :
      Reach s → Reach { s with board := s.board.progressTicket tid amount }
  | smash (s : SimState) (tid : String) :
      Reach s → Reach { s with board := s.board.smashBlocker tid
                               blockersSmashed := s.blockersSmashed + 1 }
  | tickStep (s : SimState) (pow : ℚ → ℚ → ℚ) (rng : TickRng) :
      Reach s → Reach (tick pow rng s)
  | startSprintStep (s : SimState) : Reach s → Reach (startSprint s)
  | hire (s : SimState) (cid : String) :
      Reach s → Reach { s with team := s.team.hireDeveloper cid }
  | add (s : SimState) (d : Developer) (h : DevOK d) :
      Reach s → Reach { s with team := s.team.addDeveloper d }
  | refresh (s : SimState) (cands : List Developer)
      (h : ∀ d ∈ cands, generatedCandidate d) :
      Reach s → Reach { s with team := s.team.refreshCandidates cands }
  | clearBoardStep (s : SimState) :
      Reach s → Reach { s with board := s.board.clearBoard }
  | clearAllStep (s : SimState) :
      Reach s → Reach { s with board := s.board.clearAll }

theorem stateOK_of_fields (s s' : SimState) (hb : s'.board = s.board)
    (ht : s'.team = s.team) (h : StateOK s) : StateOK s' := by
  unfold StateOK at h ⊢
  rw [hb, ht]
  exact h

theorem computeTotalVelocity_nonneg (l : List Developer)
    (h : ∀ d ∈ l, DevOK d) : 0 ≤ computeTotalVelocity l := by
  unfold computeTotalVelocity
  rw [foldl_add_eq_sum, foldl_add_eq_sum, zero_add, zero_add]
  refine mul_nonneg (List.sum_nonneg ?_) (add_nonneg zero_le_one (List.sum_nonneg ?_))
  · intro x hx
    obtain ⟨d, hd, rfl⟩ := List.mem_map.mp hx
    exact (h d hd).1
  · intro x hx
    obtain ⟨d, hd, rfl⟩ := List.mem_map.mp hx
    exact (h d hd).2

theorem moveTicket_ok (b : BoardState) (tid : String) (col : TicketStatus)
    (hb : ∀ t ∈ b.tickets, TicketOK t) :
    (∀ t ∈ (b.moveTicket tid col).tickets, TicketOK t) ∧
    (b.moveTicket tid col).backlog = b.backlog := by
  refine ⟨fun t ht => ?_, rfl⟩
  obtain ⟨t0, ht0, rfl⟩ := List.mem_map.mp ht
  by_cases h : t0.id = tid <;> simp only [h, if_pos, if_neg, not_false_iff] <;>
    exact hb t0 ht0

theorem smashBlocker_ok (b : BoardState) (tid : String)
    (hb : ∀ t ∈ b.tickets, TicketOK t) :
    ∀ t ∈ (b.smashBlocker tid).tickets, TicketOK t := by
  intro t ht
  obtain ⟨t0, ht0, rfl⟩ := List.mem_map.mp ht
  by_cases h : t0.id = tid <;> simp only [h, if_pos, if_neg, not_false_iff] <;>
    exact hb t0 ht0

theorem progressTicket_ok (b : BoardState) (tid : String) (amt : ℚ)
    (hamt : 0 ≤ amt) (hb : ∀ t ∈ b.tickets, TicketOK t) :
    (∀ t ∈ (b.progressTicket tid amt).tickets, TicketOK t) ∧
    (b.progressTicket tid amt).backlog = b.backlog := by
  refine ⟨fun t ht => ?_, rfl⟩
  obtain ⟨t0, ht0, rfl⟩ := List.mem_map.mp ht
  by_cases h : t0.id = tid
  · obtain ⟨h1, h2⟩ := hb t0 ht0
    simp only [h, if_pos]
    exact ⟨le_min (add_nonneg h1 hamt) (h1.trans h2), min_le_right _ _⟩
  · simp only [h, if_neg, not_false_iff]
    exact hb t0 ht0

theorem foldl_progressTicket_ok (l : List Ticket) (amt : ℚ) (hamt : 0 ≤ amt)
    (b : BoardState) (hb : ∀ t ∈ b.tickets, TicketOK t) :
    (∀ t ∈ (l.foldl (fun acc t => acc.progressTicket t.id amt) b).tickets,
      TicketOK t) ∧
    (l.foldl (fun acc t => acc.progressTicket t.id amt) b).backlog
      = b.backlog := by
  induction l generalizing b with
  | nil => exact ⟨hb, rfl⟩
  | cons x l ih =>
      rw [List.foldl_cons]
      obtain ⟨h1, h2⟩ := progressTicket_ok b x.id amt hamt hb
      obtain ⟨h3, h4⟩ := ih _ h1
      exact ⟨h3, h4.trans h2⟩

theorem foldl_moveTicket_ok (l : List Ticket) (b : BoardState)
    (hb : ∀ t ∈ b.tickets, TicketOK t) :
    (∀ t ∈ (l.foldl (fun acc t => acc.moveTicket t.id TicketStatus.done)
        b).tickets, TicketOK t) ∧
    (l.foldl (fun acc t => acc.moveTicket t.id TicketStatus.done) b).backlog
      = b.backlog := by
  induction l generalizing b with
  | nil => exact ⟨hb, rfl⟩
  | cons x l ih =>
      rw [List.foldl_cons]
      obtain ⟨h1, h2⟩ := moveTicket_ok b x.id TicketStatus.done hb
      obtain ⟨h3, h4⟩ := ih _ h1
      exact ⟨h3, h4.trans h2⟩

theorem progressStep_ok (s : SimState) (h : StateOK s) :
    StateOK (progressStep s) := by
  obtain ⟨hb, hbk, hd, hc, hv⟩ := h
  unfold progressStep
  simp only []
  split
  · exact ⟨hb, hbk, hd, hc, hv⟩
  · split
    · have hamt : (0 : ℚ) ≤ s.team.totalVelocity *
          wipMultiplierCalc
            (s.board.tickets.filter fun t =>
              t.type = TicketType.story ∧ t.status = TicketStatus.doing).length
            s.team.developers.length *
          (if 0 < (if 0 < s.flowBurstTicksRemaining then
              s.flowBurstTicksRemaining - 1 else s.flowBurstTicksRemaining) then
            FLOW_BURST_MULTIPLIER else 1) /
          ((s.board.tickets.filter fun t =>
              t.type = TicketType.story ∧ t.status = TicketStatus.doing).length : ℚ) := by
        refine div_nonneg (mul_nonneg (mul_nonneg hv ?_) ?_) (Nat.cast_nonneg _)
        · exact le_trans (by norm_num [WIP_PENALTY_FLOOR]) (le_max_left _ _)
        · repeat' split
          all_goals norm_num [FLOW_BURST_MULTIPLIER]
      obtain ⟨h1, h2⟩ := foldl_progressTicket_ok _ _ hamt s.board hb
      refine ⟨h1, ?_, hd, hc, hv⟩
      rw [h2]
      exact hbk
    · exact ⟨hb, hbk, hd, hc, hv⟩

theorem promoteStep_ok (s : SimState) (h : StateOK s) :
    StateOK (promoteStep s) := by
  obtain ⟨hb, hbk, hd, hc, hv⟩ := h
  unfold promoteStep
  simp only []
  obtain ⟨h1, h2⟩ := foldl_moveTicket_ok
    (s.board.tickets.filter fun t =>
      t.type = TicketType.story ∧ t.status = TicketStatus.doing ∧
        t.pointsCompleted ≥ t.storyPoints) s.board hb
  refine ⟨h1, ?_, hd, hc, hv⟩
  rw [h2]
  exact hbk

theorem spawnedBlocker_ok (rng : TickRng) : TicketOK (spawnedBlocker rng) := by
  constructor <;> simp [spawnedBlocker, BLOCKER_STORY_POINTS]

theorem spawnStep_ok (rng : TickRng) (s : SimState) (h : StateOK s) :
    StateOK (spawnStep rng s) := by
  obtain ⟨hb, hbk, hd, hc, hv⟩ := h
  unfold spawnStep
  simp only []
  repeat' split
  all_goals
    refine ⟨fun t ht => ?_, hbk, hd, hc, hv⟩
  all_goals
    first
      | exact hb t ht
      | (rcases List.mem_append.mp ht with h1 | h1
         · exact hb t h1
         · rw [List.mem_singleton.mp h1]
           exact spawnedBlocker_ok rng)

theorem dayStep_team (pow : ℚ → ℚ → ℚ) (s : SimState) :
    (dayStep pow s).team = s.team := by
  unfold dayStep sprintEndStep gameLoopStop
  simp only []
  repeat' split
  all_goals rfl

theorem dayStep_ok (pow : ℚ → ℚ → ℚ) (s : SimState) (h : StateOK s) :
    StateOK (dayStep pow s) :=
  stateOK_of_fields s _ (dayStep_board pow s) (dayStep_team pow s) h

theorem tick_ok (pow : ℚ → ℚ → ℚ) (rng : TickRng) (s : SimState)
    (h : StateOK s) : StateOK (tick pow rng s) := by
  unfold tick
  split
  · exact h
  · exact dayStep_ok pow _ (spawnStep_ok rng _ (promoteStep_ok _ (progressStep_ok _ h)))

theorem commitStory_ok (b : BoardState) (tid : String)
    (hb : ∀ t ∈ b.tickets, TicketOK t) (hbk : ∀ t ∈ b.backlog, TicketOK t) :
    (∀ t ∈ (b.commitStory tid).tickets, TicketOK t) ∧
    (∀ t ∈ (b.commitStory tid).backlog, TicketOK t) := by
  unfold BoardState.commitStory
  split
  · exact ⟨hb, hbk⟩
  · rename_i story hfind
    constructor
    · intro t ht
      rcases List.mem_append.mp ht with h1 | h1
      · exact hb t h1
      · rw [List.mem_singleton.mp h1]
        exact hbk story (List.mem_of_find?_eq_some hfind)
    · intro t ht
      exact hbk t (List.mem_of_mem_filter ht)

theorem uncommitStory_ok (b : BoardState) (tid : String)
    (hb : ∀ t ∈ b.tickets, TicketOK t) (hbk : ∀ t ∈ b.backlog, TicketOK t) :
    (∀ t ∈ (b.uncommitStory tid).tickets, TicketOK t) ∧
    (∀ t ∈ (b.uncommitStory tid).backlog, TicketOK t) := by
  unfold BoardState.uncommitStory
  split
  · exact ⟨hb, hbk⟩
  · rename_i story hfind
    constructor
    · intro t ht
      exact hb t (List.mem_of_mem_filter ht)
    · intro t ht
      rcases List.mem_append.mp ht with h1 | h1
      · exact hbk t h1
      · rw [List.mem_singleton.mp h1]
        exact hb story (List.mem_of_find?_eq_some hfind)

theorem hireDeveloper_ok (tm : TeamState) (cid : String)
    (hd : ∀ d ∈ tm.developers, DevOK d) (hc : ∀ d ∈ tm.candidates, DevOK d)
    (hv : 0 ≤ tm.totalVelocity) :
    (∀ d ∈ (tm.hireDeveloper cid).developers, DevOK d) ∧
    (∀ d ∈ (tm.hireDeveloper cid).candidates, DevOK d) ∧
    0 ≤ (tm.hireDeveloper cid).totalVelocity := by
  unfold TeamState.hireDeveloper
  split
  · exact ⟨hd, hc, hv⟩
  · split
    · exact ⟨hd, hc, hv⟩
    · rename_i cand hfind
      have hdevs : ∀ d ∈ tm.developers ++ [cand], DevOK d := by
        intro d hdm
        rcases List.mem_append.mp hdm with h1 | h1
        · exact hd d h1
        · rw [List.mem_singleton.mp h1]
          exact hc cand (List.mem_of_find?_eq_some hfind)
      refine ⟨hdevs, fun d hdm => hc d (List.mem_of_mem_filter hdm), ?_⟩
      exact computeTotalVelocity_nonneg _ hdevs

theorem addDeveloper_ok (tm : TeamState) (dev : Developer) (hdev : DevOK dev)
    (hd : ∀ d ∈ tm.developers, DevOK d) (hc : ∀ d ∈ tm.candidates, DevOK d)
    (hv : 0 ≤ tm.totalVelocity) :
    (∀ d ∈ (tm.addDeveloper dev).developers, DevOK d) ∧
    (∀ d ∈ (tm.addDeveloper dev).candidates, DevOK d) ∧
    0 ≤ (tm.addDeveloper dev).totalVelocity := by
  unfold TeamState.addDeveloper
  split
  · exact ⟨hd, hc, hv⟩
  · have hdevs : ∀ d ∈ tm.developers ++ [dev], DevOK d := by
      intro d hdm
      rcases List.mem_append.mp hdm with h1 | h1
      · exact hd d h1
      · rw [List.mem_singleton.mp h1]
        exact hdev
    exact ⟨hdevs, hc, computeTotalVelocity_nonneg _ hdevs⟩

theorem handleAcceptContract_ok (c : Contract) (cands : List Developer)
    (s : SimState) (hc : ∀ t ∈ c.allStories, generatedStory t)
    (hcands : ∀ d ∈ cands, generatedCandidate d) (h : StateOK s) :
    StateOK (handleAcceptContract c cands s) := by
  obtain ⟨hb, hbk, hd, hcnd, hv⟩ := h
  unfold handleAcceptContract
  split
  · exact ⟨hb, hbk, hd, hcnd, hv⟩
  · unfold gameLoopStart
    simp only []
    split
    all_goals
      refine ⟨by simp [BoardState.setTickets, BoardState.setBacklog],
        fun t ht => ?_, hd, fun d hdm => ?_, hv⟩
    all_goals
      first
        | (obtain ⟨-, h2, h3, -, -⟩ :=
            hc t (by simpa [BoardState.setTickets, BoardState.setBacklog] using ht)
           exact ⟨le_of_eq h2.symm, by rw [h2]; linarith⟩)
        | (obtain ⟨h1, h2, -⟩ := hcands d (by simpa [TeamState.refreshCandidates] using hdm)
           exact ⟨h1, h2⟩)

theorem startSprint_fields (s : SimState) :
    (startSprint s).board = s.board ∧ (startSprint s).team = s.team := by
  unfold startSprint
  split <;> exact ⟨rfl, rfl⟩

/-- Every reachable state satisfies the whole-world invariant. -/
theorem reach_stateOK (s : SimState) (h : Reach s) : StateOK s := by
  induction h with
  | init =>
      refine ⟨by simp [simBase], by simp [simBase], ?_, by simp [simBase, initialTeamState], ?_⟩
      · intro d hd
        rw [simBase] at hd
        simp only [initialTeamState, List.mem_singleton] at hd
        rw [hd]
        exact ⟨by norm_num [defaultDeveloper, BASE_DEVELOPER_VELOCITY],
          by norm_num [defaultDeveloper, auraOf]⟩
      · show 0 ≤ computeTotalVelocity [defaultDeveloper]
        refine computeTotalVelocity_nonneg _ fun d hd => ?_
        rw [List.mem_singleton.mp hd]
        exact ⟨by norm_num [defaultDeveloper, BASE_DEVELOPER_VELOCITY],
          by norm_num [defaultDeveloper, auraOf]⟩
  | accept s c cands hc hcands _ ih => exact handleAcceptContract_ok c cands s hc hcands ih
  | commit s tid _ ih =>
      obtain ⟨hb, hbk, hd, hcnd, hv⟩ := ih
      obtain ⟨h1, h2⟩ := commitStory_ok s.board tid hb hbk
      exact ⟨h1, h2, hd, hcnd, hv⟩
  | uncommit s tid _ ih =>
      obtain ⟨hb, hbk, hd, hcnd, hv⟩ := ih
      obtain ⟨h1, h2⟩ := uncommitStory_ok s.board tid hb hbk
      exact ⟨h1, h2, hd, hcnd, hv⟩
  | move s tid col _ ih =>
      obtain ⟨hb, hbk, hd, hcnd, hv⟩ := ih
      obtain ⟨h1, h2⟩ := moveTicket_ok s.board tid col hb
      refine ⟨h1, ?_, hd, hcnd, hv⟩
      rw [h2]
      exact hbk
  | progress s tid amount hamt _ ih =>
      obtain ⟨hb, hbk, hd, hcnd, hv⟩ := ih
      obtain ⟨h1, h2⟩ := progressTicket_ok s.board tid amount hamt hb
      refine ⟨h1, ?_, hd, hcnd, hv⟩
      rw [h2]
      exact hbk
  | smash s tid _ ih =>
      obtain ⟨hb, hbk, hd, hcnd, hv⟩ := ih
      exact ⟨smashBlocker_ok s.board tid hb, hbk, hd, hcnd, hv⟩
  | tickStep s pow rng _ ih => exact tick_ok pow rng s ih
  | startSprintStep s _ ih =>
      exact stateOK_of_fields s _ (startSprint_fields s).1 (startSprint_fields s).2 ih
  | hire s cid _ ih =>
      obtain ⟨hb, hbk, hd, hcnd, hv⟩ := ih
      obtain ⟨h1, h2, h3⟩ := hireDeveloper_ok s.team cid hd hcnd hv
      exact ⟨hb, hbk, h1, h2, h3⟩
  | add s d hdev _ ih =>
      obtain ⟨hb, hbk, hd, hcnd, hv⟩ := ih
      obtain ⟨h1, h2, h3⟩ := addDeveloper_ok s.team d hdev hd hcnd hv
      exact ⟨hb, hbk, h1, h2, h3⟩
  | refresh s cands hcands _ ih =>
      obtain ⟨hb, hbk, hd, hcnd, hv⟩ := ih
      refine ⟨hb, hbk, hd, fun d hdm => ?_, hv⟩
      obtain ⟨h1, h2, -⟩ := hcands d (by simpa [TeamState.refreshCandidates] using hdm)
      exact ⟨h1, h2⟩
  | clearBoardStep s _ ih =>
      obtain ⟨hb, hbk, hd, hcnd, hv⟩ := ih
      exact ⟨by simp [BoardState.clearBoard], hbk, hd, hcnd, hv⟩
  | clearAllStep s _ ih =>
      obtain ⟨hb, hbk, hd, hcnd, hv⟩ := ih
      exact ⟨by simp [BoardState.clearAll], by simp [BoardState.clearAll], hd, hcnd, hv⟩

/-- C3: in every state reachable through the board operations (contract
acceptance installing freshly generated tickets, commit/uncommit, moveTicket,
progressTicket with its non-negative per-tick amount, blocker smashing and
the simulator tick itself), every ticket on the board and in the backlog
satisfies `0 ≤ pointsCompleted ≤ storyPoints`; blockers are created with
`BLOCKER_STORY_POINTS = 0` required points. -/
theorem board_points_invariant (s : SimState) (h : Reach s) :
    (∀ t ∈ s.board.tickets,
      0 ≤ t.pointsCompleted ∧ t.pointsCompleted ≤ t.storyPoints) ∧
    (∀ t ∈ s.board.backlog,
      0 ≤ t.pointsCompleted ∧ t.pointsCompleted ≤ t.storyPoints) ∧
    (∀ rng : TickRng, (spawnedBlocker rng).storyPoints = 0 ∧
      (spawnedBlocker rng).pointsCompleted = 0) := by
  obtain ⟨h1, h2, -, -, -⟩ := reach_stateOK s h
  exact ⟨h1, h2, fun rng => ⟨rfl, rfl⟩⟩

/-- A one-story contract whose single story is the generator's shape. -/
def demoContract : Contract :=
  { contractTwoSprints with
    allStories := [{ storyTodo4 with status := TicketStatus.backlog }] }

/-- The world right after the demo contract is accepted. -/
def demoAccepted : SimState := handleAcceptContract demoContract [] simBase

/-- The world after the demo story is committed onto the sprint board. -/
def demoCommitted : SimState :=
  { demoAccepted with board := demoAccepted.board.commitStory "s2" }

/-- The world after starting the sprint and running one tick. -/
def demoRun : SimState :=
  tick (fun x _ => x) ⟨1, "nb", "Server Down!"⟩ (startSprint demoCommitted)

/-- Witness for C3: a short concrete run — accept a contract with one
generated story, commit it, start the sprint, run a tick — and the invariant
holds at its end state. -/
theorem board_points_invariant_witness :
    (∀ t ∈ demoRun.board.tickets,
      0 ≤ t.pointsCompleted ∧ t.pointsCompleted ≤ t.storyPoints) ∧
    (∀ t ∈ demoRun.board.backlog,
      0 ≤ t.pointsCompleted ∧ t.pointsCompleted ≤ t.storyPoints) ∧
    (∀ rng : TickRng, (spawnedBlocker rng).storyPoints = 0 ∧
      (spawnedBlocker rng).pointsCompleted = 0) := by
  refine board_points_invariant demoRun ?_
  have hgen : ∀ t ∈ demoContract.allStories, generatedStory t := by
    intro t ht
    simp only [demoContract, List.mem_singleton] at ht
    rw [ht]
    refine ⟨rfl, rfl, ?_, ?_, rfl⟩ <;> norm_num [storyTodo4]
  exact Reach.tickStep _ _ _
    (Reach.startSprintStep _
      (Reach.commit demoAccepted "s2"
        (Reach.accept simBase demoContract [] hgen (by simp) Reach.init)))

/-! ## Clock / day-boundary lemmas (C6) -/

theorem progressStep_clock (s : SimState) :
    (progressStep s).sprint = s.sprint ∧
    (progressStep s).ticksThisDay = s.ticksThisDay ∧
    (progressStep s).accumulator = s.accumulator := by
  unfold progressStep
  simp only []
  repeat' split
  all_goals exact ⟨rfl, rfl, rfl⟩

theorem promoteStep_clock (s : SimState) :
    (promoteStep s).sprint = s.sprint ∧
    (promoteStep s).ticksThisDay = s.ticksThisDay ∧
    (promoteStep s).accumulator = s.accumulator := by
  unfold promoteStep
  exact ⟨rfl, rfl, rfl⟩

theorem spawnStep_clock (rng : TickRng) (s : SimState) :
    (spawnStep rng s).sprint = s.sprint ∧
    (spawnStep rng s).ticksThisDay = s.ticksThisDay ∧
    (spawnStep rng s).accumulator = s.accumulator := by
  unfold spawnStep
  simp only []
  repeat' split
  all_goals exact ⟨rfl, rfl, rfl⟩

theorem sprintEndStep_ticks (pow : ℚ → ℚ → ℚ) (s : SimState) :
    (sprintEndStep pow s).ticksThisDay = s.ticksThisDay := by
  unfold sprintEndStep gameLoopStop
  simp only []
  repeat' split
  all_goals rfl

theorem sprintEndStep_day (pow : ℚ → ℚ → ℚ) (s : SimState) :
    (sprintEndStep pow s).sprint.currentDay = s.sprint.currentDay := by
  unfold sprintEndStep gameLoopStop
  simp only []
  repeat' split
  all_goals rfl

theorem dayStep_accumulator (pow : ℚ → ℚ → ℚ) (s : SimState) :
    (dayStep pow s).accumulator = s.accumulator ∨
    (dayStep pow s).accumulator = 0 := by
  unfold dayStep sprintEndStep gameLoopStop
  simp only []
  repeat' split
  all_goals first | exact Or.inl rfl | exact Or.inr rfl

theorem tick_accumulator (pow : ℚ → ℚ → ℚ) (rng : TickRng) (s : SimState) :
    (tick pow rng s).accumulator = s.accumulator ∨
    (tick pow rng s).accumulator = 0 := by
  unfold tick
  split
  · exact Or.inl rfl
  · rcases dayStep_accumulator pow (spawnStep rng (promoteStep (progressStep s)))
      with h | h
    · left
      rw [h, (spawnStep_clock rng _).2.2, (promoteStep_clock _).2.2,
        (progressStep_clock s).2.2]
    · exact Or.inr h

theorem tick_phase_not_planning (pow : ℚ → ℚ → ℚ) (rng : TickRng) (s : SimState)
    (h : s.sprint.phase ≠ SprintPhase.planning) :
    (tick pow rng s).sprint.phase ≠ SprintPhase.planning := by
  unfold tick
  rw [if_neg h]
  unfold dayStep sprintEndStep gameLoopStop
  simp only []
  have hsp : (spawnStep rng (promoteStep (progressStep s))).sprint = s.sprint := by
    rw [(spawnStep_clock rng _).1, (promoteStep_clock _).1, (progressStep_clock s).1]
  repeat' split
  all_goals
    simp only [SprintState.advanceDay, SprintState.endSprint, hsp]
  all_goals simp_all

theorem drain_count_le (pow : ℚ → ℚ → ℚ) (fuel : ℕ) (rngs : List TickRng)
    (s : SimState) : (drain pow fuel rngs s).2 ≤ fuel := by
  induction fuel generalizing rngs s with
  | zero => exact le_refl 0
  | succ n ih =>
      rw [drain]
      simp only []
      split
      · split
        · exact Nat.le_add_left 1 n
        · exact Nat.succ_le_succ (ih _ _)
      · exact Nat.zero_le _

theorem drain_acc_lt (pow : ℚ → ℚ → ℚ) (fuel : ℕ) (rngs : List TickRng)
    (s : SimState) (h : s.accumulator ≤ fuel * TICK_INTERVAL_MS) :
    (drain pow fuel rngs s).1.accumulator < TICK_INTERVAL_MS := by
  induction fuel generalizing rngs s with
  | zero =>
      rw [drain]
      refine lt_of_le_of_lt (by simpa using h) ?_
      norm_num [TICK_INTERVAL_MS]
  | succ n ih =>
      rw [drain]
      simp only []
      split
      · rename_i hge
        split
        · show (0 : ℚ) < TICK_INTERVAL_MS
          norm_num [TICK_INTERVAL_MS]
        · refine ih _ _ ?_
          rcases tick_accumulator pow (rngs.headD ⟨0, "", ""⟩)
              { s with accumulator := s.accumulator - TICK_INTERVAL_MS } with h2 | h2
          · rw [h2]
            show s.accumulator - TICK_INTERVAL_MS ≤ _
            have : ((n : ℚ) + 1) * TICK_INTERVAL_MS
                = (n : ℚ) * TICK_INTERVAL_MS + TICK_INTERVAL_MS := by ring
            push_cast at h
            linarith
          · rw [h2]
            simp only [TICK_INTERVAL_MS]
            positivity
      · rename_i hlt
        exact lt_of_not_le hlt

theorem drain_abort_acc (pow : ℚ → ℚ → ℚ) (fuel : ℕ) (rngs : List TickRng)
    (s : SimState) (hph : s.sprint.phase = SprintPhase.active)
    (hend : (drain pow fuel rngs s).1.sprint.phase ≠ SprintPhase.active) :
    (drain pow fuel rngs s).1.accumulator = 0 := by
  induction fuel generalizing rngs s with
  | zero =>
      rw [drain] at hend
      exact absurd hph hend
  | succ n ih =>
      rw [drain] at hend ⊢
      simp only [] at hend ⊢
      by_cases hge : s.accumulator ≥ TICK_INTERVAL_MS
      · rw [if_pos hge] at hend ⊢
        by_cases hact : (tick pow (rngs.headD ⟨0, "", ""⟩)
            { s with accumulator := s.accumulator - TICK_INTERVAL_MS
            }).sprint.phase ≠ SprintPhase.active
        · rw [if_pos hact]
        · rw [if_neg hact] at hend ⊢
          exact ih _ _ (not_not.mp hact) hend
      · rw [if_neg hge] at hend
        exact absurd hph hend

/-- Iterate the simulator tick `k` times, consuming one rng record per tick. -/
def tickN (pow : ℚ → ℚ → ℚ) : ℕ → List TickRng → SimState → SimState
  | 0, _, s => s
  | k + 1, rngs, s => tickN pow k rngs.tail (tick pow (rngs.headD ⟨0, "", ""⟩) s)

theorem tick_day_fields (pow : ℚ → ℚ → ℚ) (rng : TickRng) (s : SimState)
    (hph : s.sprint.phase ≠ SprintPhase.planning) :
    (s.ticksThisDay + 1 < TICKS_PER_DAY →
      (tick pow rng s).ticksThisDay = s.ticksThisDay + 1 ∧
      (tick pow rng s).sprint = s.sprint) ∧
    (s.ticksThisDay + 1 ≥ TICKS_PER_DAY →
      (tick pow rng s).ticksThisDay = 0 ∧
      (tick pow rng s).sprint.currentDay = s.sprint.currentDay + 1) := by
  rw [tick, if_neg hph]
  have ht : (spawnStep rng (promoteStep (progressStep s))).ticksThisDay
      = s.ticksThisDay := by
    rw [(spawnStep_clock rng _).2.1, (promoteStep_clock _).2.1,
      (progressStep_clock s).2.1]
  have hs : (spawnStep rng (promoteStep (progressStep s))).sprint = s.sprint := by
    rw [(spawnStep_clock rng _).1, (promoteStep_clock _).1, (progressStep_clock s).1]
  unfold dayStep
  simp only []
  rw [ht, hs]
  constructor
  · intro hlt
    rw [if_neg (by omega)]
    exact ⟨rfl, rfl⟩
  · intro hge
    rw [if_pos hge]
    split
    · exact ⟨by rw [sprintEndStep_ticks],
        by simp [sprintEndStep_day, SprintState.advanceDay]⟩
    · exact ⟨rfl, rfl⟩

theorem tickN_day_below (pow : ℚ → ℚ → ℚ) (k : ℕ) :
    ∀ (rngs : List TickRng) (s : SimState),
      s.sprint.phase ≠ SprintPhase.planning → s.ticksThisDay + k < TICKS_PER_DAY →
      (tickN pow k rngs s).ticksThisDay = s.ticksThisDay + k ∧
      (tickN pow k rngs s).sprint = s.sprint := by
  induction k with
  | zero => intro rngs s _ _; exact ⟨rfl, rfl⟩
  | succ n ih =>
      intro rngs s hph hk
      have h1 := (tick_day_fields pow (rngs.headD ⟨0, "", ""⟩) s hph).1 (by omega)
      have hph2 : (tick pow (rngs.headD ⟨0, "", ""⟩) s).sprint.phase
          ≠ SprintPhase.planning := by
        rw [h1.2]
        exact hph
      have h2 := ih rngs.tail (tick pow (rngs.headD ⟨0, "", ""⟩) s) hph2
        (by rw [h1.1]; omega)
      rw [tickN]
      refine ⟨?_, by rw [h2.2, h1.2]⟩
      rw [h2.1, h1.1]
      omega

theorem tickN_day_reach (pow : ℚ → ℚ → ℚ) (k : ℕ) :
    ∀ (rngs : List TickRng) (s : SimState),
      s.sprint.phase ≠ SprintPhase.planning → 0 < k →
      s.ticksThisDay + k = TICKS_PER_DAY →
      (tickN pow k rngs s).sprint.currentDay = s.sprint.currentDay + 1 ∧
      (tickN pow k rngs s).ticksThisDay = 0 := by
  induction k with
  | zero => intro rngs s _ h0 _; omega
  | succ n ih =>
      intro rngs s hph _ hk
      rcases Nat.eq_zero_or_pos n with hn | hn
      · subst hn
        have h1 := (tick_day_fields pow (rngs.headD ⟨0, "", ""⟩) s hph).2 (by omega)
        rw [tickN, tickN]
        exact ⟨h1.2, h1.1⟩
      · have h1 := (tick_day_fields pow (rngs.headD ⟨0, "", ""⟩) s hph).1 (by omega)
        have hph2 : (tick pow (rngs.headD ⟨0, "", ""⟩) s).sprint.phase
            ≠ SprintPhase.planning := by
          rw [h1.2]
          exact hph
        have h2 := ih rngs.tail (tick pow (rngs.headD ⟨0, "", ""⟩) s) hph2 hn
          (by rw [h1.1]; omega)
        rw [tickN]
        refine ⟨?_, h2.2⟩
        rw [h2.1, h1.2]

/-- C6: the fixed-timestep clock and the simulator's day counter. A frame
executes at most 10 ticks (the accumulator is clamped to 10 tick intervals);
whenever a started clock processes a frame, the remaining accumulator is
below one tick interval; in a non-tickable phase the accumulator is
discarded with zero ticks run; if the drain ends outside the 'active' phase
(the re-check after every tick aborted the loop), the accumulator was
zeroed; and inside the simulator exactly `TICKS_PER_DAY = 8` ticks elapse
between successive day-counter increments. -/
theorem clock_drain_and_day_spec (pow : ℚ → ℚ → ℚ) (ts : ℚ)
    (rngs : List TickRng) (s : SimState) :
    ((frame pow ts rngs s).2 ≤ 10) ∧
    (∀ t0, s.running = true → s.lastFrameTime = some t0 →
      (frame pow ts rngs s).1.accumulator < TICK_INTERVAL_MS) ∧
    (∀ t0, s.running = true → s.lastFrameTime = some t0 →
      s.sprint.phase ≠ SprintPhase.active →
      (frame pow ts rngs s).1.accumulator = 0 ∧ (frame pow ts rngs s).2 = 0) ∧
    (∀ t0, s.running = true → s.lastFrameTime = some t0 →
      (frame pow ts rngs s).1.sprint.phase ≠ SprintPhase.active →
      (frame pow ts rngs s).1.accumulator = 0) ∧
    (TICKS_PER_DAY = 8 ∧ TICK_INTERVAL_MS = 800) ∧
    (s.ticksThisDay = 0 → s.sprint.phase ≠ SprintPhase.planning →
      (∀ k, k < TICKS_PER_DAY →
        (tickN pow k rngs s).sprint.currentDay = s.sprint.currentDay) ∧
      (tickN pow TICKS_PER_DAY rngs s).sprint.currentDay
        = s.sprint.currentDay + 1 ∧
      (tickN pow TICKS_PER_DAY rngs s).ticksThisDay = 0) := by
  have hF : s.ticksThisDay = 0 → s.sprint.phase ≠ SprintPhase.planning →
      (∀ k, k < TICKS_PER_DAY →
        (tickN pow k rngs s).sprint.currentDay = s.sprint.currentDay) ∧
      (tickN pow TICKS_PER_DAY rngs s).sprint.currentDay
        = s.sprint.currentDay + 1 ∧
      (tickN pow TICKS_PER_DAY rngs s).ticksThisDay = 0 := by
    intro h0 hph
    refine ⟨fun k hk => ?_, ?_⟩
    · rw [(tickN_day_below pow k rngs s hph (by simpa [h0] using hk)).2]
    · exact tickN_day_reach pow TICKS_PER_DAY rngs s hph (by decide)
        (by simp [h0])
  have hclamp : ∀ lt0 acc,
      min (acc + (ts - lt0)) (TICK_INTERVAL_MS * 10) ≤ 10 * TICK_INTERVAL_MS := by
    intro lt0 acc
    rw [mul_comm (10 : ℚ)]
    exact min_le_right _ _
  have hchar : ∀ t0, s.running = true → s.lastFrameTime = some t0 →
      frame pow ts rngs s =
        if s.sprint.phase = SprintPhase.active then
          drain pow 10 rngs
            { s with
              lastFrameTime := some ts
              accumulator := min (s.accumulator + (ts - t0))
                (TICK_INTERVAL_MS * 10) }
        else ({ s with lastFrameTime := some ts, accumulator := 0 }, 0) := by
    intro t0 hrun hlast
    unfold frame
    rw [hrun, hlast]
    rfl
  refine ⟨?_, ?_, ?_, ?_, ⟨rfl, rfl⟩, hF⟩
  · unfold frame
    split
    · exact Nat.zero_le _
    · cases hlast : s.lastFrameTime with
      | none => exact Nat.zero_le _
      | some t0 =>
          simp only []
          split
          · exact drain_count_le pow 10 _ _
          · exact Nat.zero_le _
  · intro t0 hrun hlast
    rw [hchar t0 hrun hlast]
    split
    · exact drain_acc_lt pow 10 _ _ (hclamp t0 s.accumulator)
    · show (0 : ℚ) < TICK_INTERVAL_MS
      norm_num [TICK_INTERVAL_MS]
  · intro t0 hrun hlast hph
    rw [hchar t0 hrun hlast, if_neg hph]
    exact ⟨rfl, rfl⟩
  · intro t0 hrun hlast hph
    rw [hchar t0 hrun hlast] at hph ⊢
    by_cases hact : s.sprint.phase = SprintPhase.active
    · rw [if_pos hact] at hph ⊢
      exact drain_abort_acc pow 10 _ _ (by simpa using hact) hph
    · rw [if_neg hact]

end ScrumGame
